import Mathlib

/-!
Verification of the affiliate-link pipeline of `src/bot/main.py`.

The Python source works on `str`; here strings are embedded as `List Char`
and each Python string primitive used by the bot is given an executable
Lean counterpart (`pyStrip` for `str.strip()`, `pyUnquote` for
`urllib.parse.unquote`, and so on).  Network and wall-clock effects
(HTTP calls, the OpenAI client, `datetime.now`) are modelled as explicit
oracle parameters; everything else is translated directly from the code.
Inputs are treated as ASCII-decodable where Python would go through
UTF-8 bytes (`unquote`/`quote` multibyte sequences are out of scope for
the URLs the bot manipulates).
-/

namespace AliBot

/-- Whitespace stripped by Python's bare `str.strip()` (ASCII range). -/
def pyIsSpace (c : Char) : Bool :=
  c = ' ' || c = '\t' || c = '\n' || c = '\x0d' || c = '\x0b' || c = '\x0c'

/-- The characters of the strip set `"[]()<>.,"` in `_canonical_url`. -/
def isStripPunct (c : Char) : Bool :=
  c = '[' || c = ']' || c = '(' || c = ')' || c = '<' || c = '>' || c = '.' || c = ','

/-- The regex class `[A-Za-z0-9]`. -/
def isAlnumA (c : Char) : Bool :=
  ('A' ≤ c && c ≤ 'Z') || ('a' ≤ c && c ≤ 'z') || ('0' ≤ c && c ≤ '9')

/-- The regex class `\d`. -/
def isDigitA (c : Char) : Bool := '0' ≤ c && c ≤ '9'

def isUnderscore (c : Char) : Bool := c = '_'

/-- Python `str.lower()` restricted to ASCII (the only case-bearing
characters in the strings the bot compares case-insensitively). -/
def lowerL (l : List Char) : List Char := l.map Char.toLower

/-- Python `str.lstrip` for a character predicate. -/
def lstripP (p : Char → Bool) (l : List Char) : List Char := l.dropWhile p

/-- Python `str.rstrip` for a character predicate. -/
def rstripP (p : Char → Bool) (l : List Char) : List Char :=
  (l.reverse.dropWhile p).reverse

/-- Python `str.strip` for a character predicate. -/
def stripP (p : Char → Bool) (l : List Char) : List Char := rstripP p (lstripP p l)

/-- Python `str.strip()` (whitespace). -/
def pyStrip (l : List Char) : List Char := stripP pyIsSpace l

/-- Python `str.rstrip()` (whitespace). -/
def pyRstrip (l : List Char) : List Char := rstripP pyIsSpace l

/-- Embeds `_canonical_url` (main.py:211-212): `url.strip().strip("[]()<>.,")`. -/
def canonicalUrl (l : List Char) : List Char := stripP isStripPunct (pyStrip l)

/-- Python `sub in s` (substring containment). -/
def isSubstring (needle : List Char) : List Char → Bool
  | [] => needle.isEmpty
  | c :: t => needle.isPrefixOf (c :: t) || isSubstring needle t

/-- Fuel-driven core of Python `str.count` (non-overlapping, left to
right); `needle` is non-empty here. -/
def countOccF : Nat → List Char → List Char → Nat
  | 0, _, _ => 0
  | _ + 1, _, [] => 0
  | fuel + 1, needle, c :: t =>
    if needle.isPrefixOf (c :: t) then
      1 + countOccF fuel needle (List.drop needle.length (c :: t))
    else
      countOccF fuel needle t

/-- Python `s.count(needle)`. -/
def countOcc (needle s : List Char) : Nat :=
  if needle = [] then s.length + 1 else countOccF (s.length + 1) needle s

/-- Fuel-driven core of Python `s.replace(old, new, cnt)`. -/
def pyReplaceF : Nat → List Char → List Char → Nat → List Char → List Char
  | 0, _, _, _, s => s
  | fuel + 1, old, new, cnt, s =>
    if cnt = 0 then s
    else if old = [] then
      new ++ (match s with
        | [] => []
        | c :: t => c :: pyReplaceF fuel old new (cnt - 1) t)
    else
      match s with
      | [] => []
      | c :: t =>
        if old.isPrefixOf (c :: t) then
          new ++ pyReplaceF fuel old new (cnt - 1) (List.drop old.length (c :: t))
        else
          c :: pyReplaceF fuel old new cnt t

/-- Python `s.replace(old, new, cnt)`. -/
def pyReplace (old new : List Char) (cnt : Nat) (s : List Char) : List Char :=
  pyReplaceF (s.length + 2) old new cnt s

/-- Python `s.replace(old, new)` (no count limit). -/
def pyReplaceAll (old new s : List Char) : List Char :=
  pyReplaceF (s.length + 2) old new (s.length + 1) s

def hexVal (c : Char) : Option Nat :=
  let n := c.toNat
  if 48 ≤ n && n ≤ 57 then some (n - 48)
  else if 97 ≤ n && n ≤ 102 then some (n - 87)
  else if 65 ≤ n && n ≤ 70 then some (n - 55)
  else none

/-- Embeds `urllib.parse.unquote` on ASCII-decodable input: a valid `%XX`
escape becomes the coded character, anything else is copied. -/
def pyUnquote : List Char → List Char
  | [] => []
  | '%' :: h1 :: h2 :: rest =>
    match hexVal h1, hexVal h2 with
    | some v1, some v2 => Char.ofNat (16 * v1 + v2) :: pyUnquote rest
    | _, _ => '%' :: pyUnquote (h1 :: h2 :: rest)
  | c :: rest => c :: pyUnquote rest

/-- Characters `urllib.parse.quote` never encodes. -/
def isQuoteSafe (c : Char) : Bool :=
  isAlnumA c || c = '_' || c = '.' || c = '-' || c = '~'

def hexDigitU (n : Nat) : Char :=
  Char.ofNat (if n < 10 then 48 + n else 55 + n)

/-- Embeds `urllib.parse.quote(s, safe="")` on ASCII input. -/
def pyQuote (l : List Char) : List Char :=
  l.flatMap fun c =>
    if isQuoteSafe c then [c]
    else ['%', hexDigitU (c.toNat / 16), hexDigitU (c.toNat % 16)]

/-- Fuel-driven core of Python `str.splitlines` (the bot only meets
`\n`-terminated lines). -/
def splitLinesF : Nat → List Char → List (List Char)
  | 0, _ => []
  | _ + 1, [] => []
  | fuel + 1, s =>
    let line := s.takeWhile (fun c => c ≠ '\n')
    match s.dropWhile (fun c => c ≠ '\n') with
    | [] => [line]
    | _ :: t => line :: splitLinesF fuel t

/-- Python `s.splitlines()`. -/
def splitLines (s : List Char) : List (List Char) := splitLinesF (s.length + 1) s

/-!
## The message assembler (main.py:241-292)

`_strip_urls_with_affiliate` substitutes two regexes over the caption
with a stateful replacer.  A match of `https?://\S+` (case-sensitive)
or of `https?%3A%2F%2F\S+` (case-insensitive) is, here, a length: the
match always spans from the current scan position to the end of the
non-whitespace run.
-/

/-- Length of a match of `url_regex = https?://\S+` anchored at the
start of `s`, if any. -/
def plainUrlMatchLen (s : List Char) : Option Nat :=
  if "https://".data.isPrefixOf s then
    let tok := (s.drop 8).takeWhile (fun c => !pyIsSpace c)
    if tok = [] then none else some (8 + tok.length)
  else if "http://".data.isPrefixOf s then
    let tok := (s.drop 7).takeWhile (fun c => !pyIsSpace c)
    if tok = [] then none else some (7 + tok.length)
  else none

/-- Length of a match of `encoded_url_regex = https?%3A%2F%2F\S+`
(`re.IGNORECASE`) anchored at the start of `s`, if any. -/
def encUrlMatchLen (s : List Char) : Option Nat :=
  if "https%3a%2f%2f".data.isPrefixOf (lowerL s) then
    let tok := (s.drop 14).takeWhile (fun c => !pyIsSpace c)
    if tok = [] then none else some (14 + tok.length)
  else if "http%3a%2f%2f".data.isPrefixOf (lowerL s) then
    let tok := (s.drop 13).takeWhile (fun c => !pyIsSpace c)
    if tok = [] then none else some (13 + tok.length)
  else none

/-- One `pattern.sub(_replacer, cleaned)` pass (main.py:248-258): the
replacer keeps the first match whose decoded form contains the
canonical affiliate link (replacing it by that link), erases every
other match, and threads the `seen_affiliate` flag. -/
def subPassF (matchLen : List Char → Option Nat) (aff : List Char) :
    Nat → Bool → List Char → List Char × Bool
  | 0, seen, s => (s, seen)
  | _ + 1, seen, [] => ([], seen)
  | fuel + 1, seen, c :: t =>
    match matchLen (c :: t) with
    | some len =>
      let decoded := canonicalUrl (pyUnquote ((c :: t).take len))
      if isSubstring aff decoded && !seen then
        let r := subPassF matchLen aff fuel true ((c :: t).drop len)
        (aff ++ r.1, r.2)
      else
        subPassF matchLen aff fuel seen ((c :: t).drop len)
    | none =>
      let r := subPassF matchLen aff fuel seen t
      (c :: r.1, r.2)

def subPass (matchLen : List Char → Option Nat) (aff : List Char)
    (seen : Bool) (s : List Char) : List Char × Bool :=
  subPassF matchLen aff (s.length + 1) seen s

/-- The fixed block header `"👇 לקנייה באליאקספרס"` (without colon). -/
def buyHeader : List Char := "👇 לקנייה באליאקספרס".data

/-- Embeds `"\n\n👇 לקנייה באליאקספרס:\n"`, the glue used when appending the
affiliate link. -/
def buyGlue : List Char := "\n\n👇 לקנייה באליאקספרס:\n".data

/-- Embeds `_strip_urls_with_affiliate` (main.py:241-268). -/
def stripUrlsWithAffiliate (content aff : List Char) (appendIfMissing : Bool) :
    List Char × Bool :=
  let normalizedAff := canonicalUrl aff
  let p1 := subPass plainUrlMatchLen normalizedAff false content
  let p2 := subPass encUrlMatchLen normalizedAff p1.2 p1.1
  let p3 :=
    if appendIfMissing && !p2.2 then
      (pyStrip (pyRstrip p2.1 ++ buyGlue ++ normalizedAff), true)
    else p2
  let occurrences := countOcc normalizedAff p3.1
  let collapsed :=
    if occurrences > 1 then pyReplace normalizedAff [] (occurrences - 1) p3.1
    else p3.1
  (pyStrip collapsed, p3.2)

/-- Embeds `strip_non_affiliate_links` (main.py:271-273). -/
def stripNonAffiliateLinks (content aff : List Char) : List Char :=
  (stripUrlsWithAffiliate content aff false).1

/-- Embeds `ensure_affiliate_link` (main.py:276-285). -/
def ensureAffiliateLink (content aff : List Char) : List Char × Bool :=
  let normalized := canonicalUrl aff
  if isSubstring normalized content then (content, false)
  else if isSubstring buyHeader content then
    (pyRstrip content ++ '\n' :: normalized, true)
  else
    (pyRstrip content ++ buyGlue ++ normalized, true)

/-- Embeds `enforce_single_affiliate_link` (main.py:288-292). -/
def enforceSingleAffiliateLink (content aff : List Char) : List Char :=
  let first := stripUrlsWithAffiliate content aff false
  if !first.2 then (stripUrlsWithAffiliate first.1 aff true).1
  else first.1

/-- The assembly pipeline of C1 and of `DealBot.process_channel`
(main.py:682-687): strip, ensure, enforce-single. -/
def assemblePipeline (caption aff : List Char) : List Char :=
  enforceSingleAffiliateLink
    (ensureAffiliateLink (stripNonAffiliateLinks caption aff) aff).1 aff

/-!
## The affiliate link builder (main.py:295-382)

The HTTP POST and JSON decode of `_from_api` are a network effect; the
parsed response is an oracle of type `Option PyVal` (`none` covers a
transport error, a non-2xx status, or an unparsable body — all of which
make `_from_api` return `None`).  The candidate extraction from the
parsed body is translated literally, including the case in which
Python would raise `AttributeError` (a nested key holding a non-dict):
that surfaces as `Except.error`, exactly like the `RuntimeError` at the
end of `build`, since both abort the caller.
-/

/-- A parsed JSON value as `response.json()` hands it to `_from_api`. -/
inductive PyVal where
  | pstr (s : List Char)
  | pdict (entries : List (List Char × PyVal))
  | pnone
  | pother

/-- Embeds `data.get(k)` on a dict (absent key gives `None`). -/
def pdictGet (entries : List (List Char × PyVal)) (k : List Char) : PyVal :=
  match entries.find? (fun e => e.1 = k) with
  | some e => e.2
  | none => PyVal.pnone

/-- Embeds `data.get(k) if isinstance(data, dict) else None`. -/
def topGet (data : PyVal) (k : List Char) : PyVal :=
  match data with
  | PyVal.pdict es => pdictGet es k
  | _ => PyVal.pnone

/-- Embeds `data.get(k1, {}).get(k2) if isinstance(data, dict) else None`;
`Except.error` is the `AttributeError` Python raises when `data[k1]`
exists but is not a dict. -/
def nestedGet (data : PyVal) (k1 k2 : List Char) : Except Unit PyVal :=
  match data with
  | PyVal.pdict es =>
    match es.find? (fun e => e.1 = k1) with
    | none => Except.ok PyVal.pnone
    | some e =>
      match e.2 with
      | PyVal.pdict es2 => Except.ok (pdictGet es2 k2)
      | _ => Except.error ()
  | _ => Except.ok PyVal.pnone

/-- The `candidates` list of `_from_api` (main.py:334-341), in source
order. -/
def apiCandidates (data : PyVal) : Except Unit (List PyVal) := do
  let c3 ← nestedGet data "data".data "affiliate_link".data
  let c4 ← nestedGet data "data".data "promotion_link".data
  let c5 ← nestedGet data "data".data "link".data
  let c6 ← nestedGet data "result".data "promotion_link".data
  Except.ok [topGet data "affiliate_link".data, topGet data "promotion_link".data,
    c3, c4, c5, c6]

/-- The candidate loop of `_from_api` (main.py:343-345): the first
candidate that is a string with non-blank content wins, canonicalized.
-/
def pickCandidate : List PyVal → Option (List Char)
  | [] => none
  | PyVal.pstr s :: rest =>
    if pyStrip s = [] then pickCandidate rest else some (canonicalUrl s)
  | _ :: rest => pickCandidate rest

/-- Embeds `AffiliateLinkBuilder._from_api` (main.py:299-348), with the wire
round-trip abstracted by `response`. -/
def fromApi (apiEndpoint : Option (List Char)) (response : Option PyVal) :
    Except Unit (Option (List Char)) :=
  match apiEndpoint with
  | none => Except.ok none
  | some _ =>
    match response with
    | none => Except.ok none
    | some data => do
      let cs ← apiCandidates data
      Except.ok (pickCandidate cs)

/-- Embeds `AffiliateLinkBuilder._from_portal_template` (main.py:350-356). -/
def fromPortalTemplate (portalTemplate : Option (List Char))
    (encodedUrl : List Char) : Option (List Char) :=
  match portalTemplate with
  | none => none
  | some t =>
    if isSubstring "\x7burl\x7d".data t then
      some (pyStrip (pyReplaceAll "\x7burl\x7d".data encodedUrl t))
    else some (pyStrip t)

/-- Embeds `AffiliateLinkBuilder._from_prefix` (main.py:358-361). -/
def fromPrefixStr (prefixStr : Option (List Char)) (encodedUrl : List Char) :
    Option (List Char) :=
  match prefixStr with
  | none => none
  | some p => some (p ++ encodedUrl)

/-- The configuration fields the pipeline reads (a slice of `Config`,
main.py:126-151). -/
structure BotConfig where
  apiEndpoint : Option (List Char)
  portalTemplate : Option (List Char)
  prefixStr : Option (List Char)
  dryRun : Bool
  maxPostsPerRun : Nat
  resolveRedirects : Bool
  maxMessagesPerChannel : Nat

/-- Embeds `AffiliateLinkBuilder.build` (main.py:363-382).  `Except.error ()`
is the uncaught exception path: the final
`raise RuntimeError("Failed to build affiliate link; ...")`, or the
`AttributeError` from the candidate extraction. -/
def build (cfg : BotConfig) (response : Option PyVal) (originalUrl : List Char) :
    Except Unit (List Char) :=
  let cleaned := canonicalUrl (pyUnquote originalUrl)
  let encoded := pyQuote cleaned
  match fromApi cfg.apiEndpoint response with
  | Except.error e => Except.error e
  | Except.ok apiLink =>
    match apiLink with
    | some (c :: cs) => Except.ok (c :: cs)
    | _ =>
      match fromPortalTemplate cfg.portalTemplate encoded with
      | some (c :: cs) => Except.ok (c :: cs)
      | _ =>
        match fromPrefixStr cfg.prefixStr encoded with
        | some (c :: cs) => Except.ok (c :: cs)
        | _ => Except.error ()

/-!
## The redirect resolver (main.py:215-238)

The HTTP GET is an oracle: `net = some f` is the case
`response.history and response.url` holding with final URL `f`; `none`
is every other case (disabled redirects never consult it).
-/

/-- Embeds `resolve_final_url` (main.py:215-238). -/
def resolveFinalUrl (enabled : Bool) (net : Option (List Char))
    (url : List Char) : List Char :=
  if !enabled then url
  else
    let normalized := canonicalUrl url
    if !isSubstring "s.click.aliexpress.com".data (lowerL normalized) then normalized
    else
      match net with
      | some finalUrl => finalUrl
      | none => normalized

/-!
## Link extraction and identifier normalization (main.py:506-533)
-/

/-- Length of a match of
`ali_regex = https?://[^\s]*aliexpress\.com[^\s]*` (`re.IGNORECASE`)
anchored at the start of `s`: the scheme plus the whole non-whitespace
run, provided that run contains `aliexpress.com`. -/
def aliMatchLen (s : List Char) : Option Nat :=
  let schemeLen :=
    if "https://".data.isPrefixOf (lowerL s) then some 8
    else if "http://".data.isPrefixOf (lowerL s) then some 7
    else none
  match schemeLen with
  | none => none
  | some k =>
    let run := (s.drop k).takeWhile (fun c => !pyIsSpace c)
    if isSubstring "aliexpress.com".data (lowerL run) then some (k + run.length)
    else none

/-- Fuel-driven `ali_regex.findall`. -/
def findAliF : Nat → List Char → List (List Char)
  | 0, _ => []
  | _ + 1, [] => []
  | fuel + 1, c :: t =>
    match aliMatchLen (c :: t) with
    | some len => (c :: t).take len :: findAliF fuel ((c :: t).drop len)
    | none => findAliF fuel t

/-- Embeds `extract_aliexpress_links` (main.py:509-512). -/
def extractAliexpressLinks (text : List Char) : List (List Char) :=
  if text = [] then [] else findAliF (text.length + 1) text

/-- The short-link pattern
`s\.click\.aliexpress\.com/(?:e|aw)/(_?[A-Za-z0-9]+)` (`re.IGNORECASE`)
anchored at the start of `s`: returns the capture group. -/
def clickAt (s : List Char) : Option (List Char) :=
  if lowerL (s.take 23) = "s.click.aliexpress.com/".data then
    let r := s.drop 23
    let afterBranch :=
      if lowerL (r.take 2) = "e/".data then some (r.drop 2)
      else if lowerL (r.take 3) = "aw/".data then some (r.drop 3)
      else none
    match afterBranch with
    | none => none
    | some rest =>
      match rest with
      | [] => none
      | r0 :: body =>
        if r0 = '_' then
          let tok := body.takeWhile isAlnumA
          if tok = [] then none else some ('_' :: tok)
        else
          let tok := (r0 :: body).takeWhile isAlnumA
          if tok = [] then none else some tok
  else none

/-- Embeds `re.search` for the short-link pattern: leftmost match's group. -/
def searchClick : List Char → Option (List Char)
  | [] => none
  | c :: t =>
    match clickAt (c :: t) with
    | some g => some g
    | none => searchClick t

/-- The pattern `/item/(\d+)\.html` anchored at the start of `s`. -/
def itemAt (s : List Char) : Option (List Char) :=
  if "/item/".data.isPrefixOf s then
    let digits := (s.drop 6).takeWhile isDigitA
    if digits ≠ [] && ".html".data.isPrefixOf (s.drop (6 + digits.length)) then
      some digits
    else none
  else none

/-- Embeds `re.search(r"/item/(\d+)\.html", s)`: leftmost match's group. -/
def searchItem : List Char → Option (List Char)
  | [] => none
  | c :: t =>
    match itemAt (c :: t) with
    | some g => some g
    | none => searchItem t

/-- The pattern `/(\d+)\.html` anchored at the start of `s`. -/
def slashDigitsAt (s : List Char) : Option (List Char) :=
  match s with
  | '/' :: rest =>
    let digits := rest.takeWhile isDigitA
    if digits ≠ [] && ".html".data.isPrefixOf (rest.drop digits.length) then
      some digits
    else none
  | _ => none

/-- Embeds `re.search(r"/(\d+)\.html", s)`: leftmost match's group. -/
def searchSlashDigits : List Char → Option (List Char)
  | [] => none
  | c :: t =>
    match slashDigitsAt (c :: t) with
    | some g => some g
    | none => searchSlashDigits t

/-- Embeds `normalize_aliexpress_id` (main.py:515-533). -/
def normalizeAliexpressId (url : List Char) : List Char :=
  let normalizedUrl := canonicalUrl url
  match searchClick normalizedUrl with
  | some g => g.dropWhile isUnderscore
  | none =>
    match searchItem normalizedUrl with
    | some d => d
    | none =>
      match searchSlashDigits normalizedUrl with
      | some d => d
      | none => normalizedUrl.takeWhile (fun c => c ≠ '?')

/-!
## Captions, the feed ledger, and the processing loop (main.py:412-791)

`CaptionWriter.write` wraps an OpenAI call whose outcome is an oracle:
`none` is an exception escaping `write` (caught at the call site,
main.py:677-680), `some content` is the returned message content after
Python's `or ""`.  `evaluate_post_quality` reads the wall clock
(message age), so its verdict is likewise a per-message oracle bit.
Everything downstream of those oracles is translated from the source.
-/

/-- Embeds `_fallback_caption` (main.py:412-426). -/
def fallbackCaption (origText aff : List Char) : List Char :=
  let cleaned := splitLines (pyStrip origText)
  let headline :=
    match cleaned.head? with
    | some h => h
    | none => "מצאתי דיל ששווה להציץ בו".data
  let bullets := (((cleaned.drop 1).take 5).filter (fun l => pyStrip l ≠ [])).take 4
  let bulletBlock :=
    if bullets = [] then "• לפרטים נוספים בקישור".data
    else List.intercalate "\n".data (bullets.map (fun b => "• ".data ++ pyStrip b))
  pyStrip (List.intercalate "\n".data
    [headline, "הנה הפרטים בקצרה:".data, bulletBlock,
     "👇 לקנייה באליאקספרס:".data, canonicalUrl aff])

/-- Embeds `CaptionWriter.write` (main.py:476-498): `writerResp = none` is an
exception, `some content` the model output (`response...content or ""`).
-/
def writerWrite (writerResp : Option (List Char)) (origText aff : List Char) :
    Except Unit (List Char) :=
  match writerResp with
  | none => Except.error ()
  | some content =>
    if pyStrip content = [] then Except.ok (fallbackCaption origText aff)
    else Except.ok (pyStrip content)

/-- The dedup marker `f"(id:{product_id})"`. -/
def idMarker (productId : List Char) : List Char :=
  "(id:".data ++ productId ++ ")".data

/-- Embeds `format_message` (main.py:582-583). -/
def formatMessage (content productId : List Char) : List Char :=
  content ++ "\n\n".data ++ idMarker productId

/-- Embeds `DealBot.already_posted` (main.py:604-610): scan the newest 300
messages of the target feed for the marker. -/
def alreadyPosted (feed : List (List Char)) (productId : List Char) : Bool :=
  (feed.take 300).any (fun m => isSubstring (idMarker productId) m)

/-- One candidate message as `process_channel` sees it, with its
effect oracles. -/
structure MsgEnv where
  text : Option (List Char)
  media : Bool
  qualityOk : Bool
  netRedirect : Option (List Char)
  apiResp : Option PyVal
  writerResp : Option (List Char)
  sendMediaOk : Bool
  sendTextOk : Bool

/-- The mutable state the pipeline owns: the in-run id set
(`processed_product_ids`) and the target feed (newest first), which is
the persisted ledger. -/
structure BotState where
  processedIds : List (List Char)
  feed : List (List Char)

/-- Outcome of handling one message of the scan loop. -/
inductive StepOut where
  | cont (st : BotState) (posted : Bool)
  | raised (st : BotState)

def stepState : StepOut → BotState
  | StepOut.cont st _ => st
  | StepOut.raised st => st

def stepPosted : StepOut → Bool
  | StepOut.cont _ p => p
  | StepOut.raised _ => false

def isRaised : StepOut → Bool
  | StepOut.cont _ _ => false
  | StepOut.raised _ => true

/-- The body of the `async for` loop of `DealBot.process_channel`
(main.py:624-744) for one message.  `raised` is an exception escaping
the body — the only source is `affiliate_builder.build` (main.py:669),
which sits outside every `try`. -/
def processMessage (cfg : BotConfig) (st : BotState) (m : MsgEnv) : StepOut :=
  match m.text with
  | none => StepOut.cont st false
  | some txt =>
    if txt = [] then StepOut.cont st false
    else
      match extractAliexpressLinks txt with
      | [] => StepOut.cont st false
      | link :: _ =>
        if !m.qualityOk then StepOut.cont st false
        else
          let resolved := resolveFinalUrl cfg.resolveRedirects m.netRedirect link
          let productId := normalizeAliexpressId resolved
          if st.processedIds.contains productId then StepOut.cont st false
          else if alreadyPosted st.feed productId then
            StepOut.cont { st with processedIds := productId :: st.processedIds } false
          else
            match build cfg m.apiResp resolved with
            | Except.error _ => StepOut.raised st
            | Except.ok aff =>
              let sourceWithoutLinks := stripNonAffiliateLinks txt aff
              let writerInput :=
                if sourceWithoutLinks = [] then txt else sourceWithoutLinks
              let newCaption :=
                match writerWrite m.writerResp writerInput aff with
                | Except.ok c => c
                | Except.error _ => writerInput ++ buyGlue ++ aff
              let cleanedCaption := stripNonAffiliateLinks newCaption aff
              let securedCaption := (ensureAffiliateLink cleanedCaption aff).1
              let finalCaption := enforceSingleAffiliateLink securedCaption aff
              let finalText := formatMessage finalCaption productId
              let sendSuccess :=
                cfg.dryRun || (m.media && m.sendMediaOk) || m.sendTextOk
              if sendSuccess then
                let newFeed := if cfg.dryRun then st.feed else finalText :: st.feed
                StepOut.cont
                  { processedIds := productId :: st.processedIds, feed := newFeed }
                  true
              else StepOut.cont st false

/-- Result of one channel scan. -/
structure ChanRes where
  st : BotState
  posted : Nat
  scanned : Nat
  raisedE : Bool

/-- The scan loop of `process_channel`, threading `posted_count` and
`scanned_messages` (main.py:623-744). -/
def processChannelAux (cfg : BotConfig) : BotState → Nat → Nat → List MsgEnv → ChanRes
  | st, posted, scanned, [] => ⟨st, posted, scanned, false⟩
  | st, posted, scanned, m :: rest =>
    match processMessage cfg st m with
    | StepOut.raised st' => ⟨st', posted, scanned + 1, true⟩
    | StepOut.cont st' didPost =>
      if didPost then
        if posted + 1 ≥ cfg.maxPostsPerRun then ⟨st', posted + 1, scanned + 1, false⟩
        else processChannelAux cfg st' (posted + 1) (scanned + 1) rest
      else processChannelAux cfg st' posted (scanned + 1) rest

/-- Embeds `DealBot.process_channel` (main.py:612-757): at most
`max_messages_per_channel` messages are iterated. -/
def processChannel (cfg : BotConfig) (st : BotState) (msgs : List MsgEnv) : ChanRes :=
  processChannelAux cfg st 0 0 (msgs.take cfg.maxMessagesPerChannel)

/-- Result of a whole run. -/
structure RunRes where
  st : BotState
  totalPosted : Nat
  raisedE : Bool

/-- Embeds `DealBot.run` (main.py:759-791): channels in configured order, one
shared state; an exception escaping a channel scan aborts the run. -/
def runBot (cfg : BotConfig) (st : BotState) : List (List MsgEnv) → RunRes
  | [] => ⟨st, 0, false⟩
  | ch :: rest =>
    let r := processChannel cfg st ch
    if r.raisedE then ⟨r.st, r.posted, true⟩
    else
      let rr := runBot cfg r.st rest
      ⟨rr.st, r.posted + rr.totalPosted, rr.raisedE⟩

/-!
## The transmitted affiliate API request (main.py:303-322)
-/

/-- The request `_from_api` transmits: headers plus a JSON body. -/
structure ApiRequest where
  headers : List (List Char × List Char)
  jsonBody : List (List Char × List Char)

/-- The request construction of `_from_api` (main.py:303-307, 319-322):
a `Content-Type` header, a bearer `Authorization` header when a token
is configured, and the body `{"url": original_url}`. -/
def buildApiRequest (apiToken : Option (List Char)) (originalUrl : List Char) :
    ApiRequest :=
  { headers :=
      ("Content-Type".data, "application/json".data) ::
        (match apiToken with
         | some t => [("Authorization".data, "Bearer ".data ++ t)]
         | none => [])
    jsonBody := [("url".data, originalUrl)] }

/-!
## Claim-side definitions

These follow the words of the spec sentences under scrutiny (not the
source); they exist to be compared with the source-derived functions.
-/

/-- C7's rule 1 as the claim words it: the canonical product-path
pattern `/item/<digits>`, anchored at the start of `s`. -/
def claimItemAt (s : List Char) : Option (List Char) :=
  if "/item/".data.isPrefixOf s then
    let digits := (s.drop 6).takeWhile isDigitA
    if digits = [] then none else some digits
  else none

/-- Leftmost occurrence of C7's rule 1. -/
def claimItemRule : List Char → Option (List Char)
  | [] => none
  | c :: t =>
    match claimItemAt (c :: t) with
    | some g => some g
    | none => claimItemRule t

/-- C7's rule 3 as the claim words it: the first run of 10 or more
consecutive digits anywhere in the URL. -/
def claimDigitRun10 : List Char → Option (List Char)
  | [] => none
  | c :: t =>
    let run := (c :: t).takeWhile isDigitA
    if run.length ≥ 10 then some run else claimDigitRun10 t

/-- The extractor C7 describes: rule order item-path, short-link token,
10+-digit run; no identifier when none match. -/
def claimC7Extract (url : List Char) : Option (List Char) :=
  match claimItemRule url with
  | some d => some d
  | none =>
    match (searchClick url).map (fun g => g.dropWhile isUnderscore) with
    | some t => some t
    | none => claimDigitRun10 url

/-- An ordered rule list in the shape of the spec's §4.3 description,
used to state what order the source actually implements. -/
def firstSome {α β : Type} : List (α → Option β) → α → Option β
  | [], _ => none
  | f :: fs, a =>
    match f a with
    | some b => some b
    | none => firstSome fs a

/-- The source's actual extraction rules, in source order: short-link
token (underscore stripped), `/item/<digits>.html`, `/<digits>.html`. -/
def sourceRules : List (List Char → Option (List Char)) :=
  [fun n => (searchClick n).map (fun g => g.dropWhile isUnderscore),
   searchItem, searchSlashDigits]

/-- The amended C7 extractor: the source's ordered rules over the
canonicalized URL, with the query-stripped URL as final fallback. -/
def extractIdSpec (url : List Char) : List Char :=
  let n := canonicalUrl url
  match firstSome sourceRules n with
  | some i => i
  | none => n.takeWhile (fun c => c ≠ '?')

/-- Boolean: the ends of `l` are free of Python `strip()` whitespace. -/
def noWsEnds (l : List Char) : Bool :=
  (match l.head? with
   | some c => !pyIsSpace c
   | none => true) &&
  (match l.getLast? with
   | some c => !pyIsSpace c
   | none => true)

/-- C3's containment hypothesis: the affiliate builder would produce a
usable link for this message's candidate (so main.py:669 cannot raise).
-/
def buildSafe (cfg : BotConfig) (m : MsgEnv) : Prop :=
  ∀ txt link rest, m.text = some txt →
    extractAliexpressLinks txt = link :: rest →
    ∃ s, build cfg m.apiResp
      (resolveFinalUrl cfg.resolveRedirects m.netRedirect link) = Except.ok s

/-!
## Concrete fixtures used by counterexamples and witnesses
-/

/-- A config with only the portal-API source set (the preferred mode). -/
def cfgApiOnly : BotConfig :=
  { apiEndpoint := some "https://api.example/convert".data
    portalTemplate := none
    prefixStr := none
    dryRun := false
    maxPostsPerRun := 5
    resolveRedirects := false
    maxMessagesPerChannel := 80 }

/-- A config with only a verbatim portal template (no placeholder). -/
def cfgPortalOnly : BotConfig :=
  { apiEndpoint := none
    portalTemplate := some "https://t.co/A".data
    prefixStr := none
    dryRun := false
    maxPostsPerRun := 1
    resolveRedirects := false
    maxMessagesPerChannel := 80 }

/-- A config with only a prefix source. -/
def cfgPrefixOnly : BotConfig :=
  { apiEndpoint := none
    portalTemplate := none
    prefixStr := some "P?u=".data
    dryRun := false
    maxPostsPerRun := 5
    resolveRedirects := false
    maxMessagesPerChannel := 80 }

/-- A postable candidate message for product 11. -/
def msgItem11 : MsgEnv :=
  { text := some "http://aliexpress.com/item/11.html".data
    media := false
    qualityOk := true
    netRedirect := none
    apiResp := none
    writerResp := some "Buy now".data
    sendMediaOk := false
    sendTextOk := true }

/-- A postable candidate message for product 22. -/
def msgItem22 : MsgEnv :=
  { msgItem11 with text := some "http://aliexpress.com/item/22.html".data }

/-- A candidate whose media and text sends both fail. -/
def msgSendFail : MsgEnv := { msgItem11 with sendTextOk := false }

/-- The empty starting state of a run. -/
def st0 : BotState := { processedIds := [], feed := [] }

/-!
## Supporting lemmas on the Python string primitives
-/

theorem head_dropWhile_not {p : Char → Bool} :
    ∀ {l : List Char} {c : Char}, (l.dropWhile p).head? = some c → p c = false := by
  intro l
  induction l with
  | nil => intro c h; simp [List.dropWhile] at h
  | cons a t ih =>
    intro c h
    rw [List.dropWhile_cons] at h
    by_cases hp : p a = true
    · rw [if_pos hp] at h
      exact ih h
    · rw [if_neg hp] at h
      simp only [List.head?_cons, Option.some.injEq] at h
      subst h
      exact Bool.eq_false_iff.mpr hp

theorem dropWhile_eq_self_of_head {p : Char → Bool} {l : List Char}
    (h : ∀ c, l.head? = some c → p c = false) : l.dropWhile p = l := by
  cases l with
  | nil => rfl
  | cons a t =>
    rw [List.dropWhile_cons, if_neg]
    simp [h a rfl]

theorem mem_of_getLast?_eq {α : Type} :
    ∀ {l : List α} {x : α}, l.getLast? = some x → x ∈ l := by
  intro l
  induction l with
  | nil => intro x h; simp at h
  | cons a t ih =>
    intro x h
    cases t with
    | nil =>
      simp only [List.getLast?_singleton, Option.some.injEq] at h
      simp [h]
    | cons b u =>
      rw [List.getLast?_cons_cons] at h
      exact List.mem_cons_of_mem a (ih h)

theorem getLast?_of_suffix_ne_nil {α : Type} {r l : List α}
    (hs : r <:+ l) (hne : r ≠ []) : r.getLast? = l.getLast? := by
  obtain ⟨t, rfl⟩ := hs
  rw [List.getLast?_append]
  obtain ⟨x, hx⟩ : ∃ x, r.getLast? = some x := by
    cases hr : r.getLast? with
    | none => exact absurd (List.getLast?_eq_none_iff.mp hr) hne
    | some x => exact ⟨x, rfl⟩
  rw [hx]
  rfl

theorem getLast_dropWhile_eq {p : Char → Bool} {l : List Char}
    (h : l.dropWhile p ≠ []) : (l.dropWhile p).getLast? = l.getLast? :=
  getLast?_of_suffix_ne_nil (List.dropWhile_suffix p) h

theorem head_stripP_not {p : Char → Bool} {l : List Char} {c : Char}
    (h : (stripP p l).head? = some c) : p c = false := by
  unfold stripP rstripP lstripP at h
  rw [List.head?_reverse] at h
  have hne : (l.dropWhile p).reverse.dropWhile p ≠ [] := by
    intro hnil
    rw [hnil] at h
    simp at h
  rw [getLast_dropWhile_eq hne, List.getLast?_reverse] at h
  exact head_dropWhile_not h

theorem getLast_stripP_not {p : Char → Bool} {l : List Char} {c : Char}
    (h : (stripP p l).getLast? = some c) : p c = false := by
  unfold stripP rstripP lstripP at h
  rw [List.getLast?_reverse] at h
  exact head_dropWhile_not h

theorem stripP_eq_self {p : Char → Bool} {l : List Char}
    (h1 : ∀ c, l.head? = some c → p c = false)
    (h2 : ∀ c, l.getLast? = some c → p c = false) : stripP p l = l := by
  unfold stripP rstripP lstripP
  rw [dropWhile_eq_self_of_head h1]
  rw [dropWhile_eq_self_of_head (by intro c hc; rw [List.head?_reverse] at hc; exact h2 c hc)]
  exact List.reverse_reverse l

theorem alnum_not_space {c : Char} (h : isAlnumA c = true) : pyIsSpace c = false := by
  by_contra hsp
  rw [Bool.not_eq_false] at hsp
  simp only [pyIsSpace, Bool.or_eq_true, decide_eq_true_eq] at hsp
  rcases hsp with ((((rfl | rfl) | rfl) | rfl) | rfl) | rfl <;> simp [isAlnumA] at h

theorem alnum_not_punct {c : Char} (h : isAlnumA c = true) : isStripPunct c = false := by
  by_contra hsp
  rw [Bool.not_eq_false] at hsp
  simp only [isStripPunct, Bool.or_eq_true, decide_eq_true_eq] at hsp
  rcases hsp with ((((((rfl | rfl) | rfl) | rfl) | rfl) | rfl) | rfl) | rfl <;>
    simp [isAlnumA] at h

/-!
## Claim theorems
-/

/-- Claim C1 (code bug): the assembled output is meant to contain the
affiliate link exactly once — the function is even named
`enforce_single_affiliate_link` and the run log says "keep only the
personal affiliate link once" — but on caption `"XXYY"` with affiliate
link `"XY"` the duplicate-collapse step miscounts (removing the first
occurrences merges the surrounding text into a fresh occurrence) and
the pipeline emits the link twice. -/
theorem C1_assemble_emits_affiliate_twice :
    assemblePipeline "XXYY".data "XY".data =
      "XY\n\n👇 לקנייה באליאקספרס:\nXY".data ∧
    countOcc "XY".data (assemblePipeline "XXYY".data "XY".data) = 2 := by
  constructor <;> decide

/-- Claim C5 (code bug): `MAX_POSTS_PER_RUN` is documented as a
run-scoped cap, but `posted_count` lives in `process_channel` and is
reset per channel: with the cap at 1 and two source channels holding
one postable candidate each, the run sends 2 posts. -/
theorem C5_per_run_cap_applies_per_channel :
    cfgPortalOnly.maxPostsPerRun = 1 ∧
    (runBot cfgPortalOnly st0 [[msgItem11], [msgItem22]]).totalPosted = 2 := by
  constructor <;> decide

/-- Claim C6, counterexample: `_canonical_url` is not idempotent — on
`"[ a ]"` the first pass strips the brackets and exposes fresh
surrounding whitespace, which only a second pass removes. -/
theorem C6_normalize_not_idempotent :
    canonicalUrl (canonicalUrl "[ a ]".data) ≠ canonicalUrl "[ a ]".data := by
  decide

/-- Claim C6, amended: `_canonical_url` is idempotent on every input
whose canonical form has no leading or trailing whitespace (stripping
the bracket set is what can expose new whitespace; the punctuation set
itself can never reappear at the ends of the output). -/
theorem C6_normalize_idempotent_when_no_ws_ends (s : List Char)
    (h : noWsEnds (canonicalUrl s) = true) :
    canonicalUrl (canonicalUrl s) = canonicalUrl s := by
  simp only [noWsEnds, Bool.and_eq_true] at h
  obtain ⟨h1, h2⟩ := h
  have hh : ∀ c, (canonicalUrl s).head? = some c → pyIsSpace c = false := by
    intro c hc
    rw [hc] at h1
    simpa using h1
  have hl : ∀ c, (canonicalUrl s).getLast? = some c → pyIsSpace c = false := by
    intro c hc
    rw [hc] at h2
    simpa using h2
  have hph : ∀ c, (canonicalUrl s).head? = some c → isStripPunct c = false := by
    intro c hc
    exact head_stripP_not (p := isStripPunct) (l := pyStrip s) hc
  have hpl : ∀ c, (canonicalUrl s).getLast? = some c → isStripPunct c = false := by
    intro c hc
    exact getLast_stripP_not (p := isStripPunct) (l := pyStrip s) hc
  show stripP isStripPunct (pyStrip (canonicalUrl s)) = canonicalUrl s
  rw [show pyStrip (canonicalUrl s) = canonicalUrl s from stripP_eq_self hh hl]
  exact stripP_eq_self hph hpl

/-- Witness for the amended C6 at `"http://a.co/x"`. -/
theorem C6_normalize_idempotent_witness :
    noWsEnds (canonicalUrl "http://a.co/x".data) = true ∧
    canonicalUrl (canonicalUrl "http://a.co/x".data) =
      canonicalUrl "http://a.co/x".data :=
  ⟨by decide, C6_normalize_idempotent_when_no_ws_ends "http://a.co/x".data (by decide)⟩

/-- Claim C2, counterexample: with the (preferred) API-endpoint-only
configuration and a failing API call, `build` does not fall through to
the cleaned input URL — it raises
`RuntimeError("Failed to build affiliate link; ...")` (main.py:382). -/
theorem C2_build_raises_when_api_fails :
    build cfgApiOnly none "https://a.co/x".data = Except.error () := by
  rfl

/-- Claim C2, amended: whenever `build` returns at all, the returned
string is non-empty (each of the three strategies is accepted only
when truthy); but when every strategy yields nothing — for instance
the API call fails and neither a portal template nor a prefix is
configured — `build` raises instead of falling back to the cleaned
input URL. -/
theorem C2_build_ok_nonempty (cfg : BotConfig) (response : Option PyVal)
    (url s : List Char) (h : build cfg response url = Except.ok s) : s ≠ [] := by
  unfold build at h
  dsimp only at h
  split at h
  · exact absurd h (by simp)
  · split at h
    · simp only [Except.ok.injEq] at h
      subst h
      simp
    · split at h
      · simp only [Except.ok.injEq] at h
        subst h
        simp
      · split at h
        · simp only [Except.ok.injEq] at h
          subst h
          simp
        · exact absurd h (by simp)

/-- Witness for the amended C2: the prefix-only config on `"a"`. -/
theorem C2_build_ok_nonempty_witness : "P?u=a".data ≠ ([] : List Char) :=
  C2_build_ok_nonempty cfgPrefixOnly none "a".data "P?u=a".data (by rfl)

/-- Claim C8, counterexample: with redirect resolution enabled, a URL
that does not contain the redirect domain is returned canonicalized,
not unchanged — wrapping punctuation is stripped. -/
theorem C8_resolve_returns_canonicalized :
    resolveFinalUrl true none "(http://example.com)".data =
      "http://example.com".data ∧
    "http://example.com".data ≠ "(http://example.com)".data := by
  constructor <;> decide

/-- Claim C8, amended: if resolution is disabled the input is returned
unchanged; if it is enabled and the canonicalized URL does not contain
`s.click.aliexpress.com` (case-insensitively), the canonicalized input
is returned — identical to the input only up to canonicalization — and
the network oracle is never consulted. -/
theorem C8_resolve_no_network_cases (url : List Char)
    (net net' : Option (List Char)) :
    resolveFinalUrl false net url = url ∧
    (isSubstring "s.click.aliexpress.com".data (lowerL (canonicalUrl url)) = false →
      resolveFinalUrl true net url = canonicalUrl url ∧
      resolveFinalUrl true net url = resolveFinalUrl true net' url) := by
  refine ⟨rfl, fun h => ?_⟩
  unfold resolveFinalUrl
  simp [h]

/-- Witness for the amended C8 at `"http://x.co"`. -/
theorem C8_resolve_no_network_witness :
    resolveFinalUrl false (some "z".data) "http://x.co".data = "http://x.co".data ∧
    resolveFinalUrl true (some "z".data) "http://x.co".data =
      canonicalUrl "http://x.co".data :=
  ⟨(C8_resolve_no_network_cases "http://x.co".data (some "z".data) none).1,
   ((C8_resolve_no_network_cases "http://x.co".data (some "z".data) none).2
     (by decide)).1⟩

/-- Claim C9, counterexample: the request `_from_api` transmits carries
no `sign` parameter at all — neither in the JSON body nor among the
headers — so it cannot equal an uppercased MD5 digest. -/
theorem C9_request_has_no_sign :
    ((buildApiRequest (some "tok".data) "https://a.co".data).jsonBody.map
      Prod.fst).contains "sign".data = false ∧
    ((buildApiRequest (some "tok".data) "https://a.co".data).headers.map
      Prod.fst).contains "sign".data = false := by
  constructor <;> decide

/-- Claim C9, amended: the affiliate request client sends a single JSON
POST whose body is exactly `{"url": <url>}` with a `Content-Type`
header and — exactly when a token is configured — a bearer
`Authorization` header; no `sign` parameter and no digest are involved.
-/
theorem C9_request_shape (apiToken : Option (List Char)) (url : List Char) :
    (buildApiRequest apiToken url).jsonBody = [("url".data, url)] ∧
    ((buildApiRequest apiToken url).headers.map Prod.fst).contains
      "sign".data = false ∧
    ((buildApiRequest apiToken url).headers.map Prod.fst).contains
      "Authorization".data = apiToken.isSome := by
  refine ⟨rfl, ?_, ?_⟩ <;> cases apiToken <;> rfl

/-- Claim C7, counterexample: the claimed rule order (item path before
short-link token) would extract `"777"` from a short link that also
carries an `/item/` path, but the source checks the short-link token
first and returns `"Ab12"`; moreover the source never returns "no
identifier" — when no rule matches it falls back to the URL truncated
at the first `?`. -/
theorem C7_rule_order_differs :
    claimC7Extract "https://s.click.aliexpress.com/e/_Ab12/item/777.html".data =
      some "777".data ∧
    normalizeAliexpressId
      "https://s.click.aliexpress.com/e/_Ab12/item/777.html".data = "Ab12".data ∧
    "Ab12".data ≠ "777".data ∧
    normalizeAliexpressId "https://example.com/a?b=c".data =
      "https://example.com/a".data := by
  refine ⟨by decide, by decide, by decide, by decide⟩

/-- Claim C7, amended: the extractor canonicalizes the URL and applies
the ordered rule list short-link token (with leading underscore
stripped), `/item/<digits>.html`, `/<digits>.html`, returning the
first match; when none matches it returns the canonicalized URL
truncated at the first `?` (never "no identifier"). -/
theorem C7_extractor_is_ordered_rules (url : List Char) :
    normalizeAliexpressId url = extractIdSpec url := by
  unfold normalizeAliexpressId extractIdSpec sourceRules
  simp only [firstSome]
  cases hc : searchClick (canonicalUrl url) with
  | some g => simp
  | none =>
    simp only [Option.map_none']
    cases hi : searchItem (canonicalUrl url) with
    | some d => simp
    | none =>
      cases hs : searchSlashDigits (canonicalUrl url) with
      | some d => simp
      | none => simp

/-- If the builder cannot raise for this message, no exception escapes
the loop body: every other failure (caption rewrite, sending) is
caught inside it. -/
theorem processMessage_no_raise (cfg : BotConfig) (m : MsgEnv)
    (hb : buildSafe cfg m) (st : BotState) :
    isRaised (processMessage cfg st m) = false := by
  unfold processMessage
  cases htext : m.text with
  | none => rfl
  | some txt =>
    dsimp only
    by_cases he : txt = []
    · simp [he, isRaised]
    · rw [if_neg he]
      cases hex : extractAliexpressLinks txt with
      | nil => rfl
      | cons link rest =>
        obtain ⟨s, hs⟩ := hb txt link rest htext hex
        by_cases hq : m.qualityOk = true
        · simp only [hq, Bool.not_true, Bool.false_eq_true, if_false]
          by_cases hdup : st.processedIds.contains (normalizeAliexpressId
            (resolveFinalUrl cfg.resolveRedirects m.netRedirect link)) = true
          · rw [if_pos hdup]
            rfl
          · rw [if_neg hdup]
            by_cases hpost : alreadyPosted st.feed (normalizeAliexpressId
              (resolveFinalUrl cfg.resolveRedirects m.netRedirect link)) = true
            · rw [if_pos hpost]
              rfl
            · rw [if_neg hpost, hs]
              dsimp only
              split <;> rfl
        · simp only [Bool.not_eq_true] at hq
          simp [hq, isRaised]

/-- Claim C3, counterexample: `affiliate_builder.build` (main.py:669)
sits outside every `try`; with the API-endpoint-only configuration and
a failing API call it raises, the exception escapes `process_channel`,
and the second message of the channel is never scanned. -/
theorem C3_build_failure_aborts_scan :
    (processChannel cfgApiOnly st0 [msgItem11, msgItem22]).raisedE = true ∧
    (processChannel cfgApiOnly st0 [msgItem11, msgItem22]).scanned = 1 := by
  constructor <;> decide

/-- Claim C3, amended: failures in caption rewriting and in sending are
contained per candidate and never abort the channel scan; but when
affiliate-link construction raises (no strategy yields a usable link),
the exception aborts the scan of that channel — and with it the run.
Formally: whenever `build` succeeds for every message of the channel,
the scan finishes without an escaping exception, whatever the caption
and send oracles do. -/
theorem C3_contained_when_build_succeeds (cfg : BotConfig) (st : BotState)
    (msgs : List MsgEnv) (hb : ∀ m ∈ msgs, buildSafe cfg m) :
    (processChannel cfg st msgs).raisedE = false := by
  have haux : ∀ ms, (∀ m ∈ ms, buildSafe cfg m) →
      ∀ st' p sc, (processChannelAux cfg st' p sc ms).raisedE = false := by
    intro ms
    induction ms with
    | nil => intro _ st' p sc; rfl
    | cons m rest ih =>
      intro hms st' p sc
      have h1 := processMessage_no_raise cfg m (hms m (List.mem_cons_self m rest)) st'
      unfold processChannelAux
      cases hout : processMessage cfg st' m with
      | raised st'' => rw [hout] at h1; simp [isRaised] at h1
      | cont st'' didPost =>
        dsimp only
        by_cases hd : didPost = true
        · rw [if_pos hd]
          split
          · rfl
          · exact ih (fun x hx => hms x (List.mem_cons_of_mem m hx)) st'' (p + 1) (sc + 1)
        · simp only [Bool.not_eq_true] at hd
          rw [hd, if_neg (by simp)]
          exact ih (fun x hx => hms x (List.mem_cons_of_mem m hx)) st'' p (sc + 1)
  exact haux _ (fun m hm => hb m (List.mem_of_mem_take hm)) st 0 0

/-- Witness for the amended C3: the portal-template config cannot fail
to build, so the two-message channel completes without raising. -/
theorem C3_contained_witness :
    (processChannel cfgPortalOnly st0 [msgItem11, msgItem22]).raisedE = false := by
  apply C3_contained_when_build_succeeds
  intro m _ txt link rest _ _
  exact ⟨_, rfl⟩

/-- Splitting a formatted message around its dedup marker. -/
theorem formatMessage_marker_split (c p : List Char) :
    formatMessage c p = (c ++ "\n\n".data) ++ idMarker p := by
  simp [formatMessage, List.append_assoc]

/-- Claim C4 (confirmed, outside dry-run simulation): handling one
candidate mutates the ledger only on a confirmed successful publish.
If both send attempts fail, the in-run id set, the target feed, and
the posted flag are all left unchanged (so the product can be retried
later); and any id that is in the in-run set afterwards was either
there before, already carried by a persisted `(id:...)` marker in the
feed, or was published in this very step — the sent message carrying
its marker now heads the feed. -/
theorem C4_ledger_only_after_publish (cfg : BotConfig) (st : BotState)
    (m : MsgEnv) (hdry : cfg.dryRun = false) :
    (m.sendMediaOk = false → m.sendTextOk = false →
      (stepState (processMessage cfg st m)).feed = st.feed ∧
      stepPosted (processMessage cfg st m) = false ∧
      ∀ pid ∈ (stepState (processMessage cfg st m)).processedIds,
        pid ∈ st.processedIds ∨ alreadyPosted st.feed pid = true) ∧
    (∀ pid ∈ (stepState (processMessage cfg st m)).processedIds,
      pid ∈ st.processedIds ∨ alreadyPosted st.feed pid = true ∨
      (stepPosted (processMessage cfg st m) = true ∧
       ∃ body, (stepState (processMessage cfg st m)).feed =
         (body ++ idMarker pid) :: st.feed)) := by
  unfold processMessage
  cases htext : m.text with
  | none =>
    exact ⟨fun _ _ => ⟨rfl, rfl, fun pid hp => Or.inl hp⟩, fun pid hp => Or.inl hp⟩
  | some txt =>
    dsimp only
    by_cases he : txt = []
    · rw [if_pos he]
      exact ⟨fun _ _ => ⟨rfl, rfl, fun pid hp => Or.inl hp⟩, fun pid hp => Or.inl hp⟩
    · rw [if_neg he]
      cases hex : extractAliexpressLinks txt with
      | nil =>
        exact ⟨fun _ _ => ⟨rfl, rfl, fun pid hp => Or.inl hp⟩, fun pid hp => Or.inl hp⟩
      | cons link rest =>
        by_cases hq : m.qualityOk = true
        · simp only [hq, Bool.not_true, Bool.false_eq_true, if_false]
          by_cases hdup : st.processedIds.contains (normalizeAliexpressId
            (resolveFinalUrl cfg.resolveRedirects m.netRedirect link)) = true
          · rw [if_pos hdup]
            exact ⟨fun _ _ => ⟨rfl, rfl, fun pid hp => Or.inl hp⟩,
              fun pid hp => Or.inl hp⟩
          · rw [if_neg hdup]
            by_cases hpost : alreadyPosted st.feed (normalizeAliexpressId
              (resolveFinalUrl cfg.resolveRedirects m.netRedirect link)) = true
            · rw [if_pos hpost]
              refine ⟨fun _ _ => ⟨rfl, rfl, fun pid hp => ?_⟩, fun pid hp => ?_⟩
              · rcases List.mem_cons.mp hp with h | h
                · exact Or.inr (h ▸ hpost)
                · exact Or.inl h
              · rcases List.mem_cons.mp hp with h | h
                · exact Or.inr (Or.inl (h ▸ hpost))
                · exact Or.inl h
            · rw [if_neg hpost]
              cases hbuild : build cfg m.apiResp
                (resolveFinalUrl cfg.resolveRedirects m.netRedirect link) with
              | error e =>
                exact ⟨fun _ _ => ⟨rfl, rfl, fun pid hp => Or.inl hp⟩,
                  fun pid hp => Or.inl hp⟩
              | ok aff =>
                dsimp only
                rw [hdry]
                simp only [Bool.false_or, Bool.false_eq_true, if_false]
                by_cases hsend : (m.media && m.sendMediaOk || m.sendTextOk) = true
                · rw [if_pos hsend]
                  refine ⟨fun hm1 hm2 => ?_, fun pid hp => ?_⟩
                  · rw [hm1, hm2] at hsend
                    simp at hsend
                  · rcases List.mem_cons.mp hp with h | h
                    · subst h
                      exact Or.inr (Or.inr ⟨rfl, _,
                        congrArg (fun x => x :: st.feed)
                          (formatMessage_marker_split _ _)⟩)
                    · exact Or.inl h
                · rw [if_neg hsend]
                  exact ⟨fun _ _ => ⟨rfl, rfl, fun pid hp => Or.inl hp⟩,
                    fun pid hp => Or.inl hp⟩
        · simp only [Bool.not_eq_true] at hq
          simp only [hq, Bool.not_false, if_true]
          exact ⟨fun _ _ => ⟨rfl, rfl, fun pid hp => Or.inl hp⟩, fun pid hp => Or.inl hp⟩

/-- Witness for C4: a candidate whose sends both fail leaves the state
and feed untouched and posts nothing. -/
theorem C4_ledger_only_after_publish_witness :
    (stepState (processMessage cfgPortalOnly st0 msgSendFail)).feed = st0.feed ∧
    stepPosted (processMessage cfgPortalOnly st0 msgSendFail) = false :=
  ⟨(((C4_ledger_only_after_publish cfgPortalOnly st0 msgSendFail rfl).1 rfl rfl)).1,
   (((C4_ledger_only_after_publish cfgPortalOnly st0 msgSendFail rfl).1 rfl rfl)).2.1⟩

theorem alnum_ne_underscore {c : Char} (h : isAlnumA c = true) : ¬c = '_' := by
  intro he
  subst he
  exact absurd h (by decide)

theorem dropWhile_underscore_alnum (t : List Char)
    (halnum : ∀ c ∈ t, isAlnumA c = true) : t.dropWhile isUnderscore = t := by
  apply dropWhile_eq_self_of_head
  intro c hc
  cases t with
  | nil => simp at hc
  | cons a t' =>
    simp only [List.head?_cons, Option.some.injEq] at hc
    have ha := alnum_ne_underscore (halnum a (List.mem_cons_self a t'))
    rw [← hc]
    simp [isUnderscore, ha]

/-- A clean literal followed by a non-empty alphanumeric tail is a
fixpoint of `_canonical_url`. -/
theorem canonicalUrl_append_clean (lit t : List Char) (a0 : Char)
    (hlith : lit.head? = some a0) (h1 : pyIsSpace a0 = false)
    (h2 : isStripPunct a0 = false) (hne : t ≠ [])
    (halnum : ∀ c ∈ t, isAlnumA c = true) :
    canonicalUrl (lit ++ t) = lit ++ t := by
  have hhead : (lit ++ t).head? = some a0 := by
    rw [List.head?_append, hlith]
    rfl
  have hlast : ∀ c, (lit ++ t).getLast? = some c → isAlnumA c = true := by
    intro c hc
    rw [List.getLast?_append] at hc
    cases hgt : t.getLast? with
    | none => exact absurd (List.getLast?_eq_none_iff.mp hgt) hne
    | some x =>
      rw [hgt, Option.or_some] at hc
      simp only [Option.some.injEq] at hc
      rw [← hc]
      exact halnum x (mem_of_getLast?_eq hgt)
  have hcs : ∀ c, (lit ++ t).head? = some c → pyIsSpace c = false := by
    intro c hc
    rw [hhead] at hc
    simp only [Option.some.injEq] at hc
    exact hc ▸ h1
  have hcp : ∀ c, (lit ++ t).head? = some c → isStripPunct c = false := by
    intro c hc
    rw [hhead] at hc
    simp only [Option.some.injEq] at hc
    exact hc ▸ h2
  unfold canonicalUrl pyStrip
  rw [stripP_eq_self hcs (fun c hc => alnum_not_space (hlast c hc))]
  exact stripP_eq_self hcp (fun c hc => alnum_not_punct (hlast c hc))

theorem searchClick_cons_of_none {c : Char} {r : List Char}
    (h : clickAt (c :: r) = none) : searchClick (c :: r) = searchClick r := by
  unfold searchClick
  rw [h]
  cases r <;> rfl

theorem searchClick_cons_of_some {c : Char} {r g : List Char}
    (h : clickAt (c :: r) = some g) : searchClick (c :: r) = some g := by
  unfold searchClick
  rw [h]

/-- Skipping a prefix at whose positions the click pattern cannot
match. -/
theorem searchClick_skip (pre suf : List Char)
    (hall : ∀ n, n < pre.length → clickAt (pre.drop n ++ suf) = none) :
    searchClick (pre ++ suf) = searchClick suf := by
  induction pre with
  | nil => rfl
  | cons a p ih =>
    have h0 := hall 0 (by simp)
    simp only [List.drop_zero] at h0
    rw [List.cons_append, searchClick_cons_of_none (by rw [← List.cons_append]; exact h0)]
    exact ih (fun n hn => by
      have := hall (n + 1) (by simpa using Nat.succ_lt_succ hn)
      simpa using this)

/-- Claim C10 (confirmed): for every non-empty alphanumeric short-link
token `t`, the `/e/_t`, `/e/t`, `/aw/_t` and `/aw/t` short links all
normalize to the same product identifier `t` — the regex group admits
one optional leading underscore and `lstrip("_")` removes it, so
underscore-prefixed and bare tokens deduplicate as the same product. -/
theorem C10_underscore_token_same_id (t : List Char) (hne : t ≠ [])
    (halnum : ∀ c ∈ t, isAlnumA c = true) :
    normalizeAliexpressId ("https://s.click.aliexpress.com/e/_".data ++ t) = t ∧
    normalizeAliexpressId ("https://s.click.aliexpress.com/e/".data ++ t) = t ∧
    normalizeAliexpressId ("https://s.click.aliexpress.com/aw/_".data ++ t) = t ∧
    normalizeAliexpressId ("https://s.click.aliexpress.com/aw/".data ++ t) = t := by
  have htw : t.takeWhile isAlnumA = t := List.takeWhile_eq_self_iff.mpr halnum
  obtain ⟨a, t', rfl⟩ : ∃ a t', t = a :: t' := by
    cases t with
    | nil => exact absurd rfl hne
    | cons a t' => exact ⟨a, t', rfl⟩
  have ha : ¬a = '_' := alnum_ne_underscore (halnum a (List.mem_cons_self a t'))
  have hskip : ∀ suf : List Char,
      (∀ n, n < 8 → clickAt (("https://".data).drop n ++ suf) = none) →
      searchClick ("https://".data ++ suf) = searchClick suf := by
    intro suf hs
    exact searchClick_skip "https://".data suf (fun n hn => hs n
      (by rw [show ("https://".data).length = 8 from rfl] at hn; exact hn))
  have hdrop : ('_' :: a :: t').dropWhile isUnderscore = a :: t' := by
    rw [List.dropWhile_cons]
    simp only [show isUnderscore '_' = true from rfl, if_true]
    exact dropWhile_underscore_alnum _ halnum
  refine ⟨?_, ?_, ?_, ?_⟩
  · have hclick : clickAt ("s.click.aliexpress.com/e/_".data ++ (a :: t')) =
        some ('_' :: a :: t') := by
      rw [show clickAt ("s.click.aliexpress.com/e/_".data ++ (a :: t')) =
          (if (a :: t').takeWhile isAlnumA = [] then none
           else some ('_' :: (a :: t').takeWhile isAlnumA)) from rfl,
        htw, if_neg (List.cons_ne_nil a t')]
    have hfull : searchClick ("https://s.click.aliexpress.com/e/_".data ++ (a :: t')) =
        some ('_' :: a :: t') := by
      rw [show searchClick ("https://s.click.aliexpress.com/e/_".data ++ (a :: t')) =
          searchClick ("https://".data ++ ("s.click.aliexpress.com/e/_".data ++ (a :: t')))
          from rfl,
        hskip _ (by intro n hn; interval_cases n <;> rfl)]
      exact searchClick_cons_of_some hclick
    unfold normalizeAliexpressId
    dsimp only
    rw [canonicalUrl_append_clean "https://s.click.aliexpress.com/e/_".data _ 'h' rfl (by decide) (by decide) hne halnum, hfull]
    exact hdrop
  · have hclick : clickAt ("s.click.aliexpress.com/e/".data ++ (a :: t')) =
        some (a :: t') := by
      rw [show clickAt ("s.click.aliexpress.com/e/".data ++ (a :: t')) =
          (if a = '_' then
            (if t'.takeWhile isAlnumA = [] then none
             else some ('_' :: t'.takeWhile isAlnumA))
           else
            (if (a :: t').takeWhile isAlnumA = [] then none
             else some ((a :: t').takeWhile isAlnumA))) from rfl,
        if_neg ha, htw, if_neg (List.cons_ne_nil a t')]
    have hfull : searchClick ("https://s.click.aliexpress.com/e/".data ++ (a :: t')) =
        some (a :: t') := by
      rw [show searchClick ("https://s.click.aliexpress.com/e/".data ++ (a :: t')) =
          searchClick ("https://".data ++ ("s.click.aliexpress.com/e/".data ++ (a :: t')))
          from rfl,
        hskip _ (by intro n hn; interval_cases n <;> rfl)]
      exact searchClick_cons_of_some hclick
    unfold normalizeAliexpressId
    dsimp only
    rw [canonicalUrl_append_clean "https://s.click.aliexpress.com/e/".data _ 'h' rfl (by decide) (by decide) hne halnum, hfull]
    exact dropWhile_underscore_alnum _ halnum
  · have hclick : clickAt ("s.click.aliexpress.com/aw/_".data ++ (a :: t')) =
        some ('_' :: a :: t') := by
      rw [show clickAt ("s.click.aliexpress.com/aw/_".data ++ (a :: t')) =
          (if (a :: t').takeWhile isAlnumA = [] then none
           else some ('_' :: (a :: t').takeWhile isAlnumA)) from rfl,
        htw, if_neg (List.cons_ne_nil a t')]
    have hfull : searchClick ("https://s.click.aliexpress.com/aw/_".data ++ (a :: t')) =
        some ('_' :: a :: t') := by
      rw [show searchClick ("https://s.click.aliexpress.com/aw/_".data ++ (a :: t')) =
          searchClick ("https://".data ++ ("s.click.aliexpress.com/aw/_".data ++ (a :: t')))
          from rfl,
        hskip _ (by intro n hn; interval_cases n <;> rfl)]
      exact searchClick_cons_of_some hclick
    unfold normalizeAliexpressId
    dsimp only
    rw [canonicalUrl_append_clean "https://s.click.aliexpress.com/aw/_".data _ 'h' rfl (by decide) (by decide) hne halnum, hfull]
    exact hdrop
  · have hclick : clickAt ("s.click.aliexpress.com/aw/".data ++ (a :: t')) =
        some (a :: t') := by
      rw [show clickAt ("s.click.aliexpress.com/aw/".data ++ (a :: t')) =
          (if a = '_' then
            (if t'.takeWhile isAlnumA = [] then none
             else some ('_' :: t'.takeWhile isAlnumA))
           else
            (if (a :: t').takeWhile isAlnumA = [] then none
             else some ((a :: t').takeWhile isAlnumA))) from rfl,
        if_neg ha, htw, if_neg (List.cons_ne_nil a t')]
    have hfull : searchClick ("https://s.click.aliexpress.com/aw/".data ++ (a :: t')) =
        some (a :: t') := by
      rw [show searchClick ("https://s.click.aliexpress.com/aw/".data ++ (a :: t')) =
          searchClick ("https://".data ++ ("s.click.aliexpress.com/aw/".data ++ (a :: t')))
          from rfl,
        hskip _ (by intro n hn; interval_cases n <;> rfl)]
      exact searchClick_cons_of_some hclick
    unfold normalizeAliexpressId
    dsimp only
    rw [canonicalUrl_append_clean "https://s.click.aliexpress.com/aw/".data _ 'h' rfl (by decide) (by decide) hne halnum, hfull]
    exact dropWhile_underscore_alnum _ halnum

/-- Witness for C10 at token `"x7"`. -/
theorem C10_underscore_token_same_id_witness :
    normalizeAliexpressId "https://s.click.aliexpress.com/e/_x7".data = "x7".data ∧
    normalizeAliexpressId "https://s.click.aliexpress.com/e/x7".data = "x7".data ∧
    normalizeAliexpressId "https://s.click.aliexpress.com/aw/_x7".data = "x7".data ∧
    normalizeAliexpressId "https://s.click.aliexpress.com/aw/x7".data = "x7".data :=
  C10_underscore_token_same_id "x7".data (by decide) (by decide)

end AliBot
